import Mathlib

/-!
Verification of the warden secret-management service core.

This file gives a shallow embedding of the Go sources of
`go-tangra/go-tangra-warden` — the relation algebra, the permission store,
the Zanzibar-style authorization engine, the folder and secret repositories,
the versioned KV adapter, and the service-layer orchestration — and proves
or refutes the specification claims about them.

Conventions of the embedding:
* Go `string`-typed enums (`Relation`, `Permission`, `ResourceType`,
  `SubjectType`) are Lean `String`s with the same constants, so unknown
  values behave exactly as in Go (map lookups miss).
* `uint32` / `int32` values are `Nat`; no arithmetic in the modelled code
  can overflow 32 bits on the inputs considered.
* Database tables are association lists; ent's `.First` is the head of the
  filtered list, `.Only`/`.Get` is `List.find?` on the id.
* `time.Time` is a `Nat` (unix seconds); `t.Before(u)` is `t < u`.
* Fallible operations return `Except RepoError α`, and operations with
  side effects additionally return the post-state so that frame effects
  are expressible even on error paths.
-/

namespace Warden

/-! ## Relation algebra (internal/authz, relations file) -/

def RelationOwner : String := "RELATION_OWNER"

def RelationEditor : String := "RELATION_EDITOR"

def RelationViewer : String := "RELATION_VIEWER"

def RelationSharer : String := "RELATION_SHARER"

def PermissionRead : String := "PERMISSION_READ"

def PermissionWrite : String := "PERMISSION_WRITE"

def PermissionDelete : String := "PERMISSION_DELETE"

def PermissionShare : String := "PERMISSION_SHARE"

def ResourceTypeFolder : String := "RESOURCE_TYPE_FOLDER"

def ResourceTypeSecret : String := "RESOURCE_TYPE_SECRET"

def SubjectTypeUser : String := "SUBJECT_TYPE_USER"

def SubjectTypeRole : String := "SUBJECT_TYPE_ROLE"

def SubjectTypeTenant : String := "SUBJECT_TYPE_TENANT"

/-- The `relationPermissions` map; a relation outside the table yields `[]`,
mirroring the missed Go map lookup (`ok = false`). -/
def relationPermissions (relation : String) : List String :=
  if relation = RelationOwner then
    [PermissionRead, PermissionWrite, PermissionDelete, PermissionShare]
  else if relation = RelationEditor then [PermissionRead, PermissionWrite]
  else if relation = RelationViewer then [PermissionRead]
  else if relation = RelationSharer then [PermissionRead, PermissionShare]
  else []

/-- `RelationGrantsPermission` from the Go source: membership in the static table. -/
def RelationGrantsPermission (relation permission : String) : Bool :=
  (relationPermissions relation).contains permission

/-- `CompareRelations`: compares only the sizes of the permission sets.
Returns -1 / 0 / 1 exactly as the Go function does. -/
def CompareRelations (r1 r2 : String) : Int :=
  let p1 := (relationPermissions r1).length
  let p2 := (relationPermissions r2).length
  if p1 < p2 then -1
  else if p1 > p2 then 1
  else 0

/-- The fold step of `GetHighestRelation`: keep the incumbent unless the
candidate has strictly more permissions. -/
def highestStep (highest r : String) : String :=
  if CompareRelations r highest > 0 then r else highest

/-- `GetHighestRelation`: first element of the list wins ties. -/
def GetHighestRelation (relations : List String) : String :=
  match relations with
  | [] => ""
  | r :: rs => rs.foldl highestStep r

/-- The `RelationHierarchy` map (missing key yields 0, as in Go). -/
def RelationHierarchy (r : String) : Nat :=
  if r = RelationOwner then 4
  else if r = RelationEditor then 3
  else if r = RelationSharer then 2
  else if r = RelationViewer then 1
  else 0

/-- `IsRelationAtLeast r1 r2`: rank comparison via `RelationHierarchy`. -/
def IsRelationAtLeast (r1 r2 : String) : Bool :=
  RelationHierarchy r1 ≥ RelationHierarchy r2

/-- The four valid relation constants. -/
def validRelations : List String :=
  [RelationOwner, RelationEditor, RelationViewer, RelationSharer]

/-- The total order the spec prescribes: permission-set size first, the
fixed rank OWNER > EDITOR > SHARER > VIEWER on ties.  Written from the
spec's words, to be compared with the code's `IsRelationAtLeast`. -/
def specAtLeast (r1 r2 : String) : Bool :=
  let s1 := (relationPermissions r1).length
  let s2 := (relationPermissions r2).length
  if s1 ≠ s2 then s1 > s2 else RelationHierarchy r1 ≥ RelationHierarchy r2

/-! ### Facts about the fold in `GetHighestRelation` -/

theorem highestStep_mem (h r : String) : highestStep h r = h ∨ highestStep h r = r := by
  unfold highestStep
  by_cases hc : CompareRelations r h > 0 <;> simp [hc]

theorem foldl_highestStep_mem (rs : List String) (h : String) :
    rs.foldl highestStep h ∈ h :: rs := by
  induction rs generalizing h with
  | nil => simp [List.foldl]
  | cons r rs ih =>
    have hmem := ih (highestStep h r)
    rcases highestStep_mem h r with he | he <;>
      simp only [List.foldl] <;> rw [he] at hmem ⊢ <;>
      rcases List.mem_cons.mp hmem with h1 | h1 <;> simp [h1]

theorem relLen_le_highestStep_left (h r : String) :
    (relationPermissions h).length ≤ (relationPermissions (highestStep h r)).length := by
  unfold highestStep CompareRelations
  by_cases h1 : (relationPermissions r).length < (relationPermissions h).length
  · simp [h1]
  · by_cases h2 : (relationPermissions r).length > (relationPermissions h).length
    · simp [h1, h2]; omega
    · simp [h1, h2]

theorem relLen_le_highestStep_right (h r : String) :
    (relationPermissions r).length ≤ (relationPermissions (highestStep h r)).length := by
  unfold highestStep CompareRelations
  by_cases h1 : (relationPermissions r).length < (relationPermissions h).length
  · simp [h1]; omega
  · by_cases h2 : (relationPermissions r).length > (relationPermissions h).length
    · simp [h1, h2]
    · simp [h1, h2]; omega

theorem foldl_highestStep_max (rs : List String) (h : String) :
    ∀ r ∈ h :: rs,
      (relationPermissions r).length ≤ (relationPermissions (rs.foldl highestStep h)).length := by
  induction rs generalizing h with
  | nil => intro r hr; simp at hr; simp [hr, List.foldl]
  | cons x xs ih =>
    intro r hr
    simp only [List.foldl]
    rcases List.mem_cons.mp hr with h1 | h1
    · subst h1
      exact le_trans (relLen_le_highestStep_left r x)
        (ih (highestStep r x) _ (List.mem_cons_self _ _))
    · rcases List.mem_cons.mp h1 with h2 | h2
      · subst h2
        exact le_trans (relLen_le_highestStep_right h r)
          (ih (highestStep h r) _ (List.mem_cons_self _ _))
      · exact ih (highestStep h x) r (List.mem_cons_of_mem _ h2)

/-! ## Data model -/

/-- A permission tuple row (`internal/authz` and the `permission` ent table). -/
structure PermissionTuple where
  tenantId : Nat
  resourceType : String
  resourceId : String
  relation : String
  subjectType : String
  subjectId : String
  grantedBy : Option Nat
  expiresAt : Option Nat
deriving Repr, DecidableEq

/-- A folder row (`folder` ent table; depth is an `int32`, never negative here). -/
structure Folder where
  id : String
  tenantId : Nat
  parentId : Option String
  name : String
  path : String
  depth : Nat
  description : String
deriving Repr, DecidableEq

/-- Secret status enum of the `secret` ent table. -/
inductive SecretStatus
  | unspecified
  | active
  | archived
  | deleted
deriving Repr, DecidableEq

/-- A secret row (`secret` ent table). -/
structure Secret where
  id : String
  tenantId : Nat
  folderId : Option String
  name : String
  vaultPath : String
  currentVersion : Nat
  status : SecretStatus
deriving Repr, DecidableEq

/-- A secret-version row (`secret_version` ent table). -/
structure SecretVersion where
  secretId : String
  versionNumber : Nat
  vaultPath : String
  comment : String
  checksum : String
deriving Repr, DecidableEq

/-! ## Permission store (internal/data/permission_repo.go) -/

/-- A tuple matches the 4-part lookup key of `PermissionRepo.HasPermission`. -/
def tupleMatches (t : PermissionTuple) (tenantId : Nat)
    (resourceType resourceId subjectType subjectId : String) : Bool :=
  t.tenantId == tenantId && t.resourceType == resourceType &&
    t.resourceId == resourceId && t.subjectType == subjectType &&
    t.subjectId == subjectId

/-- `PermissionRepo.HasPermission`: the query ends in `.First(ctx)`, so only
the first matching row (in store order) is returned; the relation is not
part of the key and expiry is not filtered. -/
def HasPermission (perms : List PermissionTuple) (tenantId : Nat)
    (resourceType resourceId subjectType subjectId : String) : Option PermissionTuple :=
  perms.find? (fun t => tupleMatches t tenantId resourceType resourceId subjectType subjectId)

/-- A tuple equals another on the full 6-tuple uniqueness key. -/
def sameSixKey (t : PermissionTuple) (tenantId : Nat)
    (resourceType resourceId relation subjectType subjectId : String) : Bool :=
  t.tenantId == tenantId && t.resourceType == resourceType &&
    t.resourceId == resourceId && t.relation == relation &&
    t.subjectType == subjectType && t.subjectId == subjectId

/-- `PermissionRepo.Create`.  The insert fails on the unique index of the
permission ent schema, the 6-tuple key
`(tenant_id, resource_type, resource_id, relation, subject_type, subject_id)`. -/
def permCreate (perms : List PermissionTuple) (tenantId : Nat)
    (resourceType resourceId relation subjectType subjectId : String)
    (grantedBy : Option Nat) (expiresAt : Option Nat) :
    List PermissionTuple × Option PermissionTuple :=
  if perms.any (fun t =>
      sameSixKey t tenantId resourceType resourceId relation subjectType subjectId) then
    (perms, none)
  else
    let t : PermissionTuple :=
      ⟨tenantId, resourceType, resourceId, relation, subjectType, subjectId,
        grantedBy, expiresAt⟩
    (perms ++ [t], some t)

/-- `PermissionRepo.DeleteByResource`: drop every tuple of the tenant that
references the resource. -/
def permDeleteByResource (perms : List PermissionTuple) (tenantId : Nat)
    (resourceType resourceId : String) : List PermissionTuple :=
  perms.filter (fun t =>
    !(t.tenantId == tenantId && t.resourceType == resourceType &&
      t.resourceId == resourceId))

/-! ## Resource lookup (folder/secret repos implementing authz.ResourceLookup) -/

/-- `FolderRepo.GetByID` (ent `.Get`, unknown id yields nil). -/
def folderGetByID (folders : List Folder) (id : String) : Option Folder :=
  folders.find? (fun f => f.id == id)

/-- `SecretRepo.GetByID`. -/
def secretGetByID (secrets : List Secret) (id : String) : Option Secret :=
  secrets.find? (fun s => s.id == id)

/-- `FolderRepo.GetFolderParentID`: unknown folder means no parent, not an
error; the tenant argument is unused by the Go implementation. -/
def GetFolderParentID (folders : List Folder) (folderId : String) : Option String :=
  match folderGetByID folders folderId with
  | none => none
  | some f => f.parentId

/-- `SecretRepo.GetSecretFolderID`. -/
def GetSecretFolderID (secrets : List Secret) (secretId : String) : Option String :=
  match secretGetByID secrets secretId with
  | none => none
  | some s => s.folderId

/-- The role lookup of `ResourceLookup.GetUserRoleIDs`: roles arrive as
request metadata, keyed here by (tenant, user). -/
def lookupRoles (roles : List ((Nat × String) × List String))
    (tenantId : Nat) (userId : String) : List String :=
  match roles.find? (fun e => e.1 == (tenantId, userId)) with
  | some e => e.2
  | none => []

/-! ## Authorization engine (internal/authz/engine.go) -/

/-- The inputs the engine reads through its store and lookup interfaces. -/
structure AuthzState where
  perms : List PermissionTuple
  folders : List Folder
  secrets : List Secret
  roles : List ((Nat × String) × List String)
deriving Repr

/-- Result of `Engine.Check`. -/
structure CheckResult where
  allowed : Bool
  relation : Option String
  reason : String
deriving Repr, DecidableEq

/-- Expiry test of `checkDirectPermission`: `ExpiresAt.Before(time.Now())`. -/
def tupleExpired (t : PermissionTuple) (now : Nat) : Bool :=
  match t.expiresAt with
  | some e => e < now
  | none => false

/-- `Engine.checkDirectPermission`. -/
def checkDirectPermission (perms : List PermissionTuple) (now tenantId : Nat)
    (resourceType resourceId permission subjectType subjectId : String) : CheckResult :=
  match HasPermission perms tenantId resourceType resourceId subjectType subjectId with
  | none => ⟨false, none, "no direct permission"⟩
  | some t =>
    if tupleExpired t now then ⟨false, none, "permission expired"⟩
    else if RelationGrantsPermission t.relation permission then
      ⟨true, some t.relation, "direct permission"⟩
    else ⟨false, none, "relation does not grant permission"⟩

/-- One level of the hierarchy walk: user, then each role, then tenant, with
the inherited reasons of `checkHierarchy`. -/
def checkFolderLevel (perms : List PermissionTuple) (now tenantId : Nat)
    (userId : String) (roleIds : List String) (permission folderId : String) : CheckResult :=
  let r1 := checkDirectPermission perms now tenantId ResourceTypeFolder folderId
    permission SubjectTypeUser userId
  if r1.allowed then { r1 with reason := "inherited from parent folder" }
  else
    match (roleIds.map (fun roleId =>
        checkDirectPermission perms now tenantId ResourceTypeFolder folderId
          permission SubjectTypeRole roleId)).find? (fun r => r.allowed) with
    | some r => { r with reason := "inherited from parent folder via role" }
    | none =>
      let r3 := checkDirectPermission perms now tenantId ResourceTypeFolder folderId
        permission SubjectTypeTenant "all"
      if r3.allowed then { r3 with reason := "inherited from parent folder via tenant" }
      else ⟨false, none, "no inherited permission"⟩

/-- The ancestor loop of `checkHierarchy`.  The Go loop runs until the parent
pointer is nil or a folder repeats (the visited set); the fuel argument is
always called with more fuel than the loop can iterate, so it never cuts the
walk short. -/
def checkHierarchyLoop (perms : List PermissionTuple) (folders : List Folder)
    (now tenantId : Nat) (userId : String) (roleIds : List String)
    (permission : String) :
    Nat → List String → Option String → CheckResult
  | _, _, none => ⟨false, none, "no inherited permission"⟩
  | 0, _, some _ => ⟨false, none, "no inherited permission"⟩
  | fuel + 1, visited, some folderId =>
    if visited.contains folderId then ⟨false, none, "no inherited permission"⟩
    else
      let r := checkFolderLevel perms now tenantId userId roleIds permission folderId
      if r.allowed then r
      else
        checkHierarchyLoop perms folders now tenantId userId roleIds permission
          fuel (folderId :: visited) (GetFolderParentID folders folderId)

/-- `Engine.checkHierarchy`: start from the secret's folder or the folder's
parent and walk up. -/
def checkHierarchy (st : AuthzState) (now tenantId : Nat)
    (userId : String) (roleIds : List String)
    (resourceType resourceId permission : String) : CheckResult :=
  let start : Option String :=
    if resourceType == ResourceTypeSecret then GetSecretFolderID st.secrets resourceId
    else if resourceType == ResourceTypeFolder then GetFolderParentID st.folders resourceId
    else none
  checkHierarchyLoop st.perms st.folders now tenantId userId roleIds permission
    (st.folders.length + 1) [] start

/-- `Engine.Check`: direct user, then roles, then tenant, then hierarchy. -/
def Check (st : AuthzState) (now tenantId : Nat)
    (userId resourceType resourceId permission : String) : CheckResult :=
  let r1 := checkDirectPermission st.perms now tenantId resourceType resourceId
    permission SubjectTypeUser userId
  if r1.allowed then r1
  else
    let roleIds := lookupRoles st.roles tenantId userId
    match (roleIds.map (fun roleId =>
        checkDirectPermission st.perms now tenantId resourceType resourceId
          permission SubjectTypeRole roleId)).find? (fun r => r.allowed) with
    | some r => r
    | none =>
      let r3 := checkDirectPermission st.perms now tenantId resourceType resourceId
        permission SubjectTypeTenant "all"
      if r3.allowed then r3
      else
        let r4 := checkHierarchy st now tenantId userId roleIds
          resourceType resourceId permission
        if r4.allowed then r4
        else ⟨false, none, "no permission found"⟩

/-! ### C1: direct-user check versus multiple tuples on the same pair -/

/-- A store holding two unexpired tuples for the same (secret, USER, user)
pair — permitted by the 6-tuple key — with the non-granting one first. -/
def c1State : AuthzState :=
  { perms :=
      [⟨7, ResourceTypeSecret, "s1", RelationViewer, SubjectTypeUser, "11", none, none⟩,
       ⟨7, ResourceTypeSecret, "s1", RelationOwner, SubjectTypeUser, "11", none, none⟩],
    folders := [], secrets := [], roles := [] }

/-- C1 is false as stated: the store contains an unexpired tuple
(OWNER) whose relation grants WRITE, yet `Check` denies, because
`HasPermission` returns only the first tuple for the pair (VIEWER) and the
engine never sees the second. -/
theorem C1_counterexample :
    (c1State.perms.get ⟨1, by decide⟩).relation = RelationOwner ∧
    tupleExpired (c1State.perms.get ⟨1, by decide⟩) 0 = false ∧
    RelationGrantsPermission (c1State.perms.get ⟨1, by decide⟩).relation PermissionWrite = true ∧
    (Check c1State 0 7 "11" ResourceTypeSecret "s1" PermissionWrite).allowed = false := by
  refine ⟨rfl, rfl, rfl, ?_⟩
  decide

/-- C1 (amended): the direct-user step consults only the first tuple in
store order for the (resource, USER, user) pair; if that first tuple is
unexpired and its relation grants the permission, `Check` allows with the
'direct permission' reason. -/
theorem C1_amended_direct_first_tuple (st : AuthzState) (now tenantId : Nat)
    (userId resourceType resourceId permission : String) (t : PermissionTuple)
    (hfirst : HasPermission st.perms tenantId resourceType resourceId
      SubjectTypeUser userId = some t)
    (hexp : tupleExpired t now = false)
    (hgrant : RelationGrantsPermission t.relation permission = true) :
    Check st now tenantId userId resourceType resourceId permission =
      ⟨true, some t.relation, "direct permission"⟩ := by
  unfold Check checkDirectPermission
  rw [hfirst]
  simp [hexp, hgrant]

/-- Witness for C1_amended_direct_first_tuple: a single unexpired OWNER
tuple yields a direct allow. -/
theorem C1_amended_witness :
    Check ⟨[⟨7, ResourceTypeSecret, "s1", RelationOwner, SubjectTypeUser, "11", none, none⟩],
        [], [], []⟩ 0 7 "11" ResourceTypeSecret "s1" PermissionWrite =
      ⟨true, some RelationOwner, "direct permission"⟩ :=
  C1_amended_direct_first_tuple _ 0 7 "11" ResourceTypeSecret "s1" PermissionWrite
    ⟨7, ResourceTypeSecret, "s1", RelationOwner, SubjectTypeUser, "11", none, none⟩
    (by decide) (by decide) (by decide)

/-! ## Typed errors surfaced by the repositories and services -/

deriving instance DecidableEq for Except

/-- `strings.HasPrefix(s, pre)`, computed on the character lists so that
concrete instances evaluate inside the kernel. -/
def goHasPre (s pre : String) : Bool :=
  pre.toList.isPrefixOf s.toList

inductive RepoError
  | folderNotFound
  | folderAlreadyExists
  | folderNotEmpty
  | circularFolderReference
  | secretNotFound
  | secretAlreadyExists
  | versionNotFound
  | permissionAlreadyExists
  | accessDenied
  | vaultOperationError
  | conflict
  | internalError
deriving Repr, DecidableEq

/-! ## Folder repository (internal/data, FolderRepo) -/

/-- Uniqueness constraint on folder rows: the unique indexes of the folder
ent schema, `(tenant_id, parent_id, name)` and `(tenant_id, path)`.  `f` is
the row being saved; rows with its id are excluded (an update may keep its
own values). -/
def folderConstraint (folders : List Folder) (f : Folder) : Bool :=
  folders.any (fun g =>
    g.id != f.id && g.tenantId == f.tenantId &&
      ((g.parentId == f.parentId && g.name == f.name) || g.path == f.path))

/-- The `builder.Save` step of `FolderRepo.Create`. -/
def folderInsert (folders : List Folder) (f : Folder) :
    List Folder × Except RepoError Folder :=
  if folderConstraint folders f then (folders, .error .folderAlreadyExists)
  else (folders ++ [f], .ok f)

/-- `FolderRepo.Create`: compute path and depth from the parent (root path
`"/" ++ name`, depth 0 when no parent is given), then save.  The fresh uuid
is passed in as `newId`. -/
def folderCreate (folders : List Folder) (newId : String) (tenantId : Nat)
    (parentId : Option String) (name description : String) :
    List Folder × Except RepoError Folder :=
  match parentId with
  | some p =>
    if p ≠ "" then
      match folderGetByID folders p with
      | none => (folders, .error .folderNotFound)
      | some parent =>
        folderInsert folders
          ⟨newId, tenantId, some p, name, parent.path ++ "/" ++ name,
            parent.depth + 1, description⟩
    else
      folderInsert folders ⟨newId, tenantId, none, name, "/" ++ name, 0, description⟩
  | none =>
    folderInsert folders ⟨newId, tenantId, none, name, "/" ++ name, 0, description⟩

/-- `FolderRepo.Update`: sets name and/or description only — the stored
`path` and `depth` are not recomputed. -/
def folderUpdate (folders : List Folder) (id : String)
    (name description : Option String) : List Folder × Except RepoError Folder :=
  match folderGetByID folders id with
  | none => (folders, .error .folderNotFound)
  | some f =>
    let f' := { f with name := name.getD f.name,
                       description := description.getD f.description }
    if folderConstraint folders f' then (folders, .error .folderAlreadyExists)
    else (folders.map (fun g => if g.id == id then f' else g), .ok f')

/-- `strings.Replace(s, old, new, 1)` as used by `updateDescendantPaths`:
there `old` is always a prefix of `s` (the rows were selected by the prefix
`old ++ "/"`), so the leftmost occurrence is at position 0. -/
def stringReplaceFirst (s old new : String) : String :=
  if goHasPre s old then new ++ String.mk (s.toList.drop old.toList.length) else s

/-- `FolderRepo.updateDescendantPaths`: rewrite the path of every folder of
the tenant under the old prefix. -/
def updateDescendantPaths (folders : List Folder) (tenantId : Nat)
    (oldP newP : String) : List Folder :=
  folders.map (fun d =>
    if d.tenantId == tenantId && goHasPre d.path (oldP ++ "/") then
      { d with path := stringReplaceFirst d.path oldP newP }
    else d)

/-- The write phase of `FolderRepo.Move`: save the updated row (uniqueness
may fail) and then rewrite descendant paths; a descendant-rewrite failure is
only logged, so it is not an error path here. -/
def folderMoveApply (folders : List Folder) (f : Folder)
    (newParentId : Option String) (newPath : String) (newDepth : Nat) :
    List Folder × Except RepoError Folder :=
  let f' := { f with parentId := newParentId, path := newPath, depth := newDepth }
  if folderConstraint folders f' then (folders, .error .folderAlreadyExists)
  else
    let fs1 := folders.map (fun g => if g.id == f.id then f' else g)
    (updateDescendantPaths fs1 f.tenantId f.path newPath, .ok f')

/-- `FolderRepo.Move`: reject a move to the folder itself or to a descendant
(new parent's path has the folder's path + "/" as a prefix) before touching
any row. -/
def folderMove (folders : List Folder) (id : String)
    (newParentId : Option String) : List Folder × Except RepoError Folder :=
  match folderGetByID folders id with
  | none => (folders, .error .folderNotFound)
  | some f =>
    match newParentId with
    | some p =>
      if p ≠ "" then
        if p == id then (folders, .error .circularFolderReference)
        else
          match folderGetByID folders p with
          | none => (folders, .error .folderNotFound)
          | some parent =>
            if goHasPre parent.path (f.path ++ "/") then
              (folders, .error .circularFolderReference)
            else
              folderMoveApply folders f (some p) (parent.path ++ "/" ++ f.name)
                (parent.depth + 1)
      else folderMoveApply folders f none ("/" ++ f.name) 0
    | none => folderMoveApply folders f none ("/" ++ f.name) 0

/-- `FolderRepo.Delete`: emptiness checks, then — with force — deletion of
every folder whose path extends the target's path (the query has no tenant
filter, unlike the sibling queries), then deletion of the row itself. -/
def folderDelete (folders : List Folder) (secrets : List Secret) (id : String)
    (force : Bool) : List Folder × Except RepoError Unit :=
  let childCount := (folders.filter (fun g => g.parentId == some id)).length
  if childCount > 0 && !force then (folders, .error .folderNotEmpty)
  else
    let secretCount := (secrets.filter (fun s =>
      s.folderId == some id && s.status != SecretStatus.deleted)).length
    if secretCount > 0 && !force then (folders, .error .folderNotEmpty)
    else
      let fs1 :=
        if force then
          match folderGetByID folders id with
          | some f => folders.filter (fun g => !(goHasPre g.path (f.path ++ "/")))
          | none => folders
        else folders
      match folderGetByID fs1 id with
      | none => (fs1, .error .folderNotFound)
      | some _ => (fs1.filter (fun g => g.id != id), .ok ())

/-! ### C2: force delete ignores the tenant boundary -/

/-- Tenant 1's root folder `/A`. -/
def c2FolderA1 : Folder := ⟨"A1", 1, none, "A", "/A", 0, ""⟩

/-- Tenant 2's root folder, also named `/A` (paths are unique per tenant,
not globally). -/
def c2FolderA2 : Folder := ⟨"A2", 2, none, "A", "/A", 0, ""⟩

/-- Tenant 2's child folder `/A/B`. -/
def c2FolderB2 : Folder := ⟨"B2", 2, some "A2", "B", "/A/B", 1, ""⟩

/-- C2 fails on the code: force-deleting tenant 1's `/A` also deletes tenant
2's `/A/B`, because the descendant query filters only by path prefix and not
by tenant.  The surviving table keeps tenant 2's root but has lost its
child. -/
theorem C2_force_delete_crosses_tenant :
    folderDelete [c2FolderA1, c2FolderA2, c2FolderB2] [] "A1" true =
      ([c2FolderA2], .ok ()) ∧
    c2FolderB2.tenantId ≠ c2FolderA1.tenantId := by
  decide

/-! ### C3: rename does not recompute the materialised path -/

/-- A root folder named `a` with the correct path `/a`. -/
def c3Folders : List Folder := [⟨"f1", 7, none, "a", "/a", 0, ""⟩]

/-- The row after `Update(name := "b")`: name changed, path untouched. -/
def c3Renamed : Folder := ⟨"f1", 7, none, "b", "/a", 0, ""⟩

/-- C3 fails on the code: a successful folder update that changes the name
leaves the stored path at its old value, so the root-path invariant
`path = "/" ++ name` no longer holds. -/
theorem C3_update_breaks_path :
    folderUpdate c3Folders "f1" (some "b") none = ([c3Renamed], .ok c3Renamed) ∧
    c3Renamed.path ≠ "/" ++ c3Renamed.name := by
  decide

/-! ### C6: circular moves are rejected without modifying any row -/

/-- C6: if the new parent is the folder itself, or is an existing folder
whose path has the moved folder's path + "/" as a prefix, `Move` returns
`CircularReference` and the folder table is unchanged. -/
theorem C6_move_circular_rejected (folders : List Folder) (id p : String)
    (f : Folder) (hf : folderGetByID folders id = some f) (hp : p ≠ "")
    (hcirc : p = id ∨ ∃ parent, folderGetByID folders p = some parent ∧
      (goHasPre parent.path (f.path ++ "/")) = true) :
    folderMove folders id (some p) = (folders, .error .circularFolderReference) := by
  unfold folderMove
  rw [hf]
  dsimp only
  by_cases hpq : p = id
  · subst hpq
    simp [hp]
  · rcases hcirc with hself | ⟨parent, hpar, hpre⟩
    · exact absurd hself hpq
    · rw [if_pos hp, if_neg (by simp [hpq])]
      rw [hpar]
      dsimp only
      rw [if_pos hpre]

/-- Witness for C6_move_circular_rejected: moving `/A` under its own child
`/A/B` is rejected and leaves both rows in place. -/
theorem C6_witness :
    folderMove [⟨"A", 1, none, "A", "/A", 0, ""⟩, ⟨"B", 1, some "A", "B", "/A/B", 1, ""⟩]
        "A" (some "B") =
      ([⟨"A", 1, none, "A", "/A", 0, ""⟩, ⟨"B", 1, some "A", "B", "/A/B", 1, ""⟩],
        .error .circularFolderReference) :=
  C6_move_circular_rejected _ "A" "B" ⟨"A", 1, none, "A", "/A", 0, ""⟩
    (by decide) (by decide)
    (Or.inr ⟨⟨"B", 1, some "A", "B", "/A/B", 1, ""⟩, by decide, by decide⟩)

/-! ## KV adapter (pkg/vault/kv.go), over Vault KV v2 -/

/-- The external KV store: per path, the list of immutable versions in order
(version `n` is element `n - 1`). -/
abbrev KV := List (String × List String)

def kvLookup (kv : KV) (path : String) : Option (List String) :=
  (kv.find? (fun e => e.1 == path)).map (fun e => e.2)

def kvSet (kv : KV) (path : String) (vs : List String) : KV :=
  (path, vs) :: kv.filter (fun e => e.1 != path)

/-- `KVStore.StorePassword` (KV v2 put): append an immutable version and
return its monotonically increasing number. -/
def kvPut (kv : KV) (path payload : String) : KV × Nat :=
  let vs := (kvLookup kv path).getD []
  (kvSet kv path (vs ++ [payload]), vs.length + 1)

/-- `KVStore.GetPassword`: current payload and its version. -/
def kvGetCurrent (kv : KV) (path : String) : Option (String × Nat) :=
  (kvLookup kv path).bind (fun vs => vs.getLast?.map (fun p => (p, vs.length)))

/-- `KVStore.GetPasswordVersion`. -/
def kvGetVersion (kv : KV) (path : String) (version : Nat) : Option String :=
  (kvLookup kv path).bind (fun vs => vs.get? (version - 1))

/-- `KVStore.DestroyAllVersions` (KV v2 metadata delete: the path and every
version disappear). -/
def kvDestroyAll (kv : KV) (path : String) : KV :=
  kv.filter (fun e => e.1 != path)

/-- `KVStore.BuildPath`: `warden/{tenant_id}/{secret_id}`. -/
def BuildPath (tenantId : Nat) (secretId : String) : String :=
  "warden/" ++ toString tenantId ++ "/" ++ secretId

/-- `vault.CalculateChecksum` is hex(SHA-256(payload)).  The hash function
itself is outside the embedding and no claim depends on its value, only on
its determinism, so it is modelled as an abstract deterministic tag of the
payload. -/
def CalculateChecksum (password : String) : String :=
  "sha256:" ++ password

/-! ## Secret and version repositories (SecretRepo, SecretVersionRepo) -/

/-- `folderID != nil && *folderID != ""`: the builder sets the folder edge
only for a non-empty id. -/
def normFolderId (folderId : Option String) : Option String :=
  match folderId with
  | some p => if p ≠ "" then some p else none
  | none => none

/-- The unique indexes of the secret ent schema:
`(tenant_id, folder_id, name)` and `vault_path`. -/
def secretConstraint (secrets : List Secret) (tenantId : Nat)
    (folderId : Option String) (name vaultPath : String) : Bool :=
  secrets.any (fun s =>
    (s.tenantId == tenantId && s.folderId == folderId && s.name == name) ||
      s.vaultPath == vaultPath)

/-- `SecretRepo.Create` (fresh uuid passed as `newId`; status ACTIVE,
current_version 1). -/
def secretCreate (secrets : List Secret) (newId : String) (tenantId : Nat)
    (folderId : Option String) (name vaultPath : String) :
    List Secret × Except RepoError Secret :=
  let fid := normFolderId folderId
  if secretConstraint secrets tenantId fid name vaultPath then
    (secrets, .error .secretAlreadyExists)
  else
    let s : Secret := ⟨newId, tenantId, fid, name, vaultPath, 1, .active⟩
    (secrets ++ [s], .ok s)

/-- `SecretRepo.UpdateVersion`: advance the current-version pointer. -/
def secretUpdateVersion (secrets : List Secret) (id : String) (version : Nat) :
    List Secret × Except RepoError Secret :=
  match secretGetByID secrets id with
  | none => (secrets, .error .secretNotFound)
  | some s =>
    let s' := { s with currentVersion := version }
    (secrets.map (fun t => if t.id == id then s' else t), .ok s')

/-- The unique indexes of the secret_version ent schema:
`(secret_id, version_number)` and `vault_path`. -/
def versionConstraint (versions : List SecretVersion) (secretId : String)
    (versionNumber : Nat) (vaultPath : String) : Bool :=
  versions.any (fun v =>
    (v.secretId == secretId && v.versionNumber == versionNumber) ||
      v.vaultPath == vaultPath)

/-- `SecretVersionRepo.Create`: a constraint violation surfaces as Conflict. -/
def versionCreate (versions : List SecretVersion) (secretId : String)
    (versionNumber : Nat) (vaultPath comment checksum : String) :
    List SecretVersion × Except RepoError SecretVersion :=
  if versionConstraint versions secretId versionNumber vaultPath then
    (versions, .error .conflict)
  else
    let v : SecretVersion := ⟨secretId, versionNumber, vaultPath, comment, checksum⟩
    (versions ++ [v], .ok v)

/-- `SecretVersionRepo.GetBySecretAndVersion`. -/
def versionGet (versions : List SecretVersion) (secretId : String)
    (versionNumber : Nat) : Option SecretVersion :=
  versions.find? (fun v => v.secretId == secretId && v.versionNumber == versionNumber)

/-! ## Request context helpers (internal/service/context_helper.go) -/

/-- Digit accumulation of `strconv.ParseUint(s, 10, 32)`. -/
def parseDigits : List Char → Nat → Option Nat
  | [], acc => some acc
  | c :: cs, acc =>
    if c.isDigit then parseDigits cs (acc * 10 + (c.toNat - 48)) else none

/-- `getUserIDAsUint32`: empty or unparseable means nil. -/
def getUserIDAsUint32 (userId : String) : Option Nat :=
  match userId.toList with
  | [] => none
  | cs =>
    match parseDigits cs 0 with
    | some n => if n < 4294967296 then some n else none
    | none => none

/-- The accumulator loop of `splitRoles`: `cur` holds the characters since
the byte after the previous comma (`rolesStr[start:i]`); on a comma the
non-empty slice is emitted, and the final slice is emitted after the loop. -/
def splitRolesGo : List Char → List Char → List (List Char)
  | [], cur => if cur = [] then [] else [cur]
  | c :: cs, cur =>
    if c = ',' then
      if cur = [] then splitRolesGo cs []
      else cur :: splitRolesGo cs []
    else splitRolesGo cs (cur ++ [c])

/-- `splitRoles`: empty header means nil. -/
def splitRoles (s : List Char) : List (List Char) :=
  if s = [] then [] else splitRolesGo s []

/-- `getRolesFromContext`: split the header and drop empty entries.  No
trimming happens anywhere. -/
def getRolesFromCtx (s : List Char) : List (List Char) :=
  (splitRoles s).filter (fun r => r ≠ [])

/-- `isPlatformAdmin`: some parsed role equals one of the reserved names
verbatim. -/
def isPlatformAdmin (s : List Char) : Bool :=
  (getRolesFromCtx s).any (fun role =>
    role == "platform:admin".toList || role == "super:admin".toList)

/-- Comma split as the spec words it (entries between commas, empties kept
here and dropped by the caller); the reference point for the amended C8. -/
def specSplitCommas : List Char → List (List Char)
  | [] => [[]]
  | c :: cs =>
    match specSplitCommas cs with
    | [] => [[]]
    | h :: t => if c = ',' then [] :: h :: t else (c :: h) :: t

/-! ## Service layer state -/

/-- The whole observable state the services act on. -/
structure World where
  kv : KV
  folders : List Folder
  secrets : List Secret
  versions : List SecretVersion
  perms : List PermissionTuple
  roles : List ((Nat × String) × List String)
deriving Repr, DecidableEq

/-- The slice of the world the authorization engine reads. -/
def World.authz (w : World) : AuthzState :=
  ⟨w.perms, w.folders, w.secrets, w.roles⟩

/-! ## SecretService (service layer) -/

/-- An initial permission of a create request, after the proto→authz enum
mapping (an UNSPECIFIED subject type maps to `""`):
(relation, subject type, subject id). -/
abbrev InitialPerm := String × String × String

/-- The initial-permission loop of `CreateSecret`: skip empty or
unspecified subjects and the creator's own USER entry; failures are only
logged. -/
def applyInitialPerms (perms : List PermissionTuple) (tenantId : Nat)
    (secretId userId : String) (grantedBy : Option Nat)
    (reqPerms : List InitialPerm) : List PermissionTuple :=
  reqPerms.foldl (fun acc p =>
    if p.2.2 == "" || p.2.1 == "" then acc
    else if p.2.1 == SubjectTypeUser && p.2.2 == userId then acc
    else (permCreate acc tenantId ResourceTypeSecret secretId p.1 p.2.1 p.2.2
      grantedBy none).1) perms

/-- A `CreateSecret` request (the fields the core logic reads). -/
structure CreateSecretReq where
  folderId : Option String
  name : String
  password : String
  versionComment : String
  initialPerms : List InitialPerm
deriving Repr

/-- The folder-WRITE guard of `CreateSecret` (skipped when no folder is
given). -/
def createAuthorized (w : World) (now tenantId : Nat) (userId : String)
    (folderId : Option String) : Bool :=
  match folderId with
  | some fid =>
    if fid ≠ "" then
      (Check w.authz now tenantId userId ResourceTypeFolder fid PermissionWrite).allowed
    else true
  | none => true

/-- `SecretService.CreateSecret`: authorize WRITE on the folder if one is
given, KV put, catalog insert (on failure: destroy the KV path and surface
the insert error), version row (warn-and-continue), owner grant and initial
grants (warn-and-continue). -/
def createSecret (w : World) (now tenantId : Nat) (userId secretId : String)
    (req : CreateSecretReq) : World × Except RepoError Secret :=
  if !(createAuthorized w now tenantId userId req.folderId) then
    (w, .error .accessDenied)
  else
    let vaultPath := BuildPath tenantId secretId
    let (kv1, _) := kvPut w.kv vaultPath req.password
    let (secrets1, res) := secretCreate w.secrets secretId tenantId req.folderId
      req.name vaultPath
    match res with
    | .error e => ({ w with kv := kvDestroyAll kv1 vaultPath }, .error e)
    | .ok sec =>
      let w1 := { w with kv := kv1, secrets := secrets1 }
      let (versions1, _) := versionCreate w1.versions secretId 1 vaultPath
        req.versionComment (CalculateChecksum req.password)
      let w2 := { w1 with versions := versions1 }
      let createdBy := getUserIDAsUint32 userId
      let w3 :=
        match createdBy with
        | some _ =>
          { w2 with perms := (permCreate w2.perms tenantId ResourceTypeSecret
              secretId RelationOwner SubjectTypeUser userId createdBy none).1 }
        | none => w2
      let w4 := { w3 with perms :=
        (applyInitialPerms w3.perms tenantId secretId userId createdBy
          req.initialPerms) }
      (w4, .ok sec)

/-- `SecretService.DeleteSecret`: authorize DELETE; with permanent, destroy
the KV path and the version rows; delete (or soft-delete) the catalog row;
then always cascade the permission tuples. -/
def deleteSecret (w : World) (now tenantId : Nat) (userId secretId : String)
    (permanent : Bool) : World × Except RepoError Unit :=
  if !(Check w.authz now tenantId userId ResourceTypeSecret secretId
      PermissionDelete).allowed then
    (w, .error .accessDenied)
  else
    match secretGetByID w.secrets secretId with
    | none => (w, .error .secretNotFound)
    | some s =>
      let w1 :=
        if permanent then
          { w with kv := kvDestroyAll w.kv s.vaultPath,
                   versions := w.versions.filter (fun v => v.secretId != secretId) }
        else w
      let w2 :=
        if permanent then
          { w1 with secrets := w1.secrets.filter (fun t => t.id != secretId) }
        else
          { w1 with secrets := w1.secrets.map (fun t =>
              if t.id == secretId then { t with status := SecretStatus.deleted }
              else t) }
      ({ w2 with perms :=
          (permDeleteByResource w2.perms tenantId ResourceTypeSecret secretId) },
        .ok ())

/-- `SecretService.GetSecretPassword`: authorize READ; a positive requested
version reads that version (after checking the history row), otherwise the
current payload is read. -/
def getSecretPassword (w : World) (now tenantId : Nat) (userId secretId : String)
    (version : Option Nat) : Except RepoError (String × Nat) :=
  if !(Check w.authz now tenantId userId ResourceTypeSecret secretId
      PermissionRead).allowed then
    .error .accessDenied
  else
    match secretGetByID w.secrets secretId with
    | none => .error .secretNotFound
    | some s =>
      match version with
      | some v =>
        if v > 0 then
          match versionGet w.versions secretId v with
          | none => .error .versionNotFound
          | some _ =>
            match kvGetVersion w.kv s.vaultPath v with
            | none => .error .vaultOperationError
            | some p => .ok (p, v)
        else
          match kvGetCurrent w.kv s.vaultPath with
          | none => .error .vaultOperationError
          | some pv => .ok pv
      | none =>
        match kvGetCurrent w.kv s.vaultPath with
        | none => .error .vaultOperationError
        | some pv => .ok pv

/-- `SecretService.RestoreVersion`: authorize WRITE; read the payload of the
requested version; KV put as a new version; history row (warn-and-continue —
the unique vault_path index of the version table makes it fail); advance the
current-version pointer.  The default comment reproduces the source's
`string(rune(n))` formatting. -/
def restoreVersion (w : World) (now tenantId : Nat) (userId secretId : String)
    (versionNumber : Nat) (comment : String) :
    World × Except RepoError (Secret × Nat) :=
  if !(Check w.authz now tenantId userId ResourceTypeSecret secretId
      PermissionWrite).allowed then
    (w, .error .accessDenied)
  else
    match secretGetByID w.secrets secretId with
    | none => (w, .error .secretNotFound)
    | some s =>
      match versionGet w.versions secretId versionNumber with
      | none => (w, .error .versionNotFound)
      | some ve =>
        match kvGetVersion w.kv ve.vaultPath versionNumber with
        | none => (w, .error .vaultOperationError)
        | some password =>
          let (kv1, newVersion) := kvPut w.kv s.vaultPath password
          let comment1 :=
            if comment = "" then
              "Restored from version " ++ String.singleton (Char.ofNat versionNumber)
            else comment
          let w1 := { w with kv := kv1 }
          let (versions1, _) := versionCreate w1.versions secretId newVersion
            s.vaultPath comment1 (CalculateChecksum password)
          let w2 := { w1 with versions := versions1 }
          let (secrets1, res) := secretUpdateVersion w2.secrets secretId newVersion
          match res with
          | .error e => ({ w2 with secrets := secrets1 }, .error e)
          | .ok s' => ({ w2 with secrets := secrets1 }, .ok (s', newVersion))

/-! ## PermissionService (service layer) -/

/-- `PermissionService.GrantAccess`: require SHARE, verify the resource
exists, then create the tuple.  The request's expires_at is converted but
the store call passes nil (the conversion is dead code behind a TODO), so
`expiresAtReq` is accepted and ignored. -/
def grantAccess (w : World) (now tenantId : Nat) (userId : String)
    (resourceType resourceId relation subjectType subjectId : String)
    (expiresAtReq : Option Nat) : World × Except RepoError PermissionTuple :=
  if !(Check w.authz now tenantId userId resourceType resourceId
      PermissionShare).allowed then
    (w, .error .accessDenied)
  else if resourceType == ResourceTypeFolder &&
      (folderGetByID w.folders resourceId).isNone then
    (w, .error .folderNotFound)
  else if resourceType == ResourceTypeSecret &&
      (secretGetByID w.secrets resourceId).isNone then
    (w, .error .secretNotFound)
  else
    match permCreate w.perms tenantId resourceType resourceId relation
      subjectType subjectId (getUserIDAsUint32 userId) none with
    | (_, none) => (w, .error .permissionAlreadyExists)
    | (perms1, some t) => ({ w with perms := perms1 }, .ok t)

/-! ### KV helper lemmas -/

theorem find?_filter_ne (kv : KV) (path : String) :
    (kv.filter (fun e => e.1 != path)).find? (fun e => e.1 == path) = none := by
  induction kv with
  | nil => rfl
  | cons e kv ih =>
    by_cases he : (e.1 == path) = true
    · have hb : (e.1 != path) = false := by simp [bne, he]
      simp [List.filter_cons, hb, ih]
    · have hb : (e.1 != path) = true := by simp [bne, he]
      simp [List.filter_cons, hb, List.find?_cons, he, ih]

theorem kvLookup_destroyAll (kv : KV) (path : String) :
    kvLookup (kvDestroyAll kv path) path = none := by
  unfold kvLookup kvDestroyAll
  rw [find?_filter_ne]
  rfl

theorem kvLookup_set_same (kv : KV) (path : String) (vs : List String) :
    kvLookup (kvSet kv path vs) path = some vs := by
  simp [kvLookup, kvSet, List.find?_cons]

/-! ### C9: the tuple cascade of DeleteSecret runs on every delete -/

/-- C9: a successful `DeleteSecret` leaves no permission tuple of the tenant
referencing the secret, and with `permanent = false` it only flips the
secret's status to DELETED — the KV store and the version rows are
untouched. -/
theorem C9_delete_cascades_tuples (w : World) (now tenantId : Nat)
    (userId secretId : String) (permanent : Bool) (w' : World)
    (h : deleteSecret w now tenantId userId secretId permanent = (w', .ok ())) :
    (∀ q ∈ w'.perms,
        ¬(q.tenantId = tenantId ∧ q.resourceType = ResourceTypeSecret ∧
          q.resourceId = secretId)) ∧
    (permanent = false →
      w'.kv = w.kv ∧ w'.versions = w.versions ∧
      w'.secrets = w.secrets.map (fun t =>
        if t.id == secretId then { t with status := SecretStatus.deleted } else t)) := by
  unfold deleteSecret at h
  by_cases hauth : (Check w.authz now tenantId userId ResourceTypeSecret secretId
      PermissionDelete).allowed = true
  · rw [if_neg (by simp [hauth])] at h
    cases hs : secretGetByID w.secrets secretId with
    | none => rw [hs] at h; simp at h
    | some s =>
      rw [hs] at h
      simp only [Prod.mk.injEq] at h
      obtain ⟨hw, -⟩ := h
      subst hw
      constructor
      · intro q hq
        simp only [permDeleteByResource, List.mem_filter] at hq
        obtain ⟨-, hqb⟩ := hq
        rintro ⟨h1, h2, h3⟩
        simp [h1, h2, h3] at hqb
      · intro hp
        subst hp
        simp
  · simp [hauth] at h

/-! ### C10: GrantAccess never persists an expiration -/

/-- C10: `GrantAccess` ignores the request's expires_at entirely — the call
is literally insensitive to it — and every tuple it creates carries no
expiration, so it is never treated as expired. -/
theorem C10_grant_ignores_expiry (w : World) (now tenantId : Nat)
    (userId resourceType resourceId relation subjectType subjectId : String)
    (e : Option Nat) :
    grantAccess w now tenantId userId resourceType resourceId relation
        subjectType subjectId e =
      grantAccess w now tenantId userId resourceType resourceId relation
        subjectType subjectId none ∧
    (∀ w' t, grantAccess w now tenantId userId resourceType resourceId relation
        subjectType subjectId e = (w', .ok t) →
      t.expiresAt = none ∧ (∀ n, tupleExpired t n = false) ∧
        w'.perms = w.perms ++ [t]) := by
  refine ⟨rfl, ?_⟩
  intro w' t h
  unfold grantAccess at h
  split at h
  · simp at h
  · split at h
    · simp at h
    · split at h
      · simp at h
      · split at h
        case _ heq =>
          simp at h
        case _ perms1 t0 heq =>
          unfold permCreate at heq
          split at heq
          · simp at heq
          · simp only [Prod.mk.injEq, Option.some.injEq] at heq
            obtain ⟨hperms, ht0⟩ := heq
            simp only [Prod.mk.injEq, Except.ok.injEq] at h
            obtain ⟨hw, ht⟩ := h
            subst hw
            subst ht
            subst ht0
            refine ⟨rfl, fun n => rfl, ?_⟩
            simp [← hperms]

/-! ### C7: CreateSecret compensates a failed catalog insert -/

/-- C7: when the folder guard passes, the KV put succeeds, and the catalog
insert hits the uniqueness constraint, `CreateSecret` destroys every KV
version at the vault path, surfaces the insert's AlreadyExists error, and
leaves no secret row, no version row, and no permission tuple for the
attempted secret. -/
theorem C7_create_insert_failure_compensates (w : World) (now tenantId : Nat)
    (userId secretId : String) (req : CreateSecretReq)
    (hauth : createAuthorized w now tenantId userId req.folderId = true)
    (hdup : secretConstraint w.secrets tenantId (normFolderId req.folderId)
      req.name (BuildPath tenantId secretId) = true)
    (hfs : ∀ s ∈ w.secrets, s.id ≠ secretId)
    (hvs : ∀ v ∈ w.versions, v.secretId ≠ secretId)
    (hps : ∀ q ∈ w.perms,
      ¬(q.resourceType = ResourceTypeSecret ∧ q.resourceId = secretId)) :
    (createSecret w now tenantId userId secretId req).2 =
      .error .secretAlreadyExists ∧
    kvLookup (createSecret w now tenantId userId secretId req).1.kv
      (BuildPath tenantId secretId) = none ∧
    (createSecret w now tenantId userId secretId req).1.secrets = w.secrets ∧
    (createSecret w now tenantId userId secretId req).1.versions = w.versions ∧
    (createSecret w now tenantId userId secretId req).1.perms = w.perms ∧
    (∀ s ∈ (createSecret w now tenantId userId secretId req).1.secrets,
      s.id ≠ secretId) ∧
    (∀ v ∈ (createSecret w now tenantId userId secretId req).1.versions,
      v.secretId ≠ secretId) ∧
    (∀ q ∈ (createSecret w now tenantId userId secretId req).1.perms,
      ¬(q.resourceType = ResourceTypeSecret ∧ q.resourceId = secretId)) := by
  have hcs : createSecret w now tenantId userId secretId req =
      ({ w with kv := kvDestroyAll (kvPut w.kv (BuildPath tenantId secretId)
          req.password).1 (BuildPath tenantId secretId) },
        .error .secretAlreadyExists) := by
    unfold createSecret
    rw [if_neg (by simp [hauth])]
    simp only [secretCreate, hdup, if_pos]
  rw [hcs]
  refine ⟨rfl, ?_, rfl, rfl, rfl, hfs, hvs, hps⟩
  exact kvLookup_destroyAll _ _

/-- Witness world for C7: a secret named `dup` already exists at the
tenant-root, so inserting the new row for the same name fails. -/
def c7World : World :=
  { kv := [], folders := [],
    secrets := [⟨"sOld", 7, none, "dup", "warden/7/sOld", 1, .active⟩],
    versions := [], perms := [], roles := [] }

/-- The C7 request colliding on `(tenant, folder, name)`. -/
def c7Req : CreateSecretReq := ⟨none, "dup", "p4ss", "", []⟩

/-- Witness for C7_create_insert_failure_compensates at a concrete world. -/
theorem C7_witness :
    (createSecret c7World 0 7 "11" "sNew" c7Req).2 = .error .secretAlreadyExists ∧
    kvLookup (createSecret c7World 0 7 "11" "sNew" c7Req).1.kv
      (BuildPath 7 "sNew") = none ∧
    (createSecret c7World 0 7 "11" "sNew" c7Req).1.secrets = c7World.secrets ∧
    (createSecret c7World 0 7 "11" "sNew" c7Req).1.perms = c7World.perms := by
  have H := C7_create_insert_failure_compensates c7World 0 7 "11" "sNew" c7Req
    (by decide) (by decide) (by decide) (by decide) (by decide)
  exact ⟨H.1, H.2.1, H.2.2.1, H.2.2.2.2.1⟩

/-- Witness world for C9: one active secret with an OWNER tuple for the
caller and one unrelated tuple that must survive the cascade. -/
def c9World : World :=
  { kv := [("warden/7/s1", ["p"])], folders := [],
    secrets := [⟨"s1", 7, none, "db", "warden/7/s1", 1, .active⟩],
    versions := [⟨"s1", 1, "warden/7/s1", "", "sha256:p"⟩],
    perms := [⟨7, ResourceTypeSecret, "s1", RelationOwner, SubjectTypeUser, "11", none, none⟩,
              ⟨7, ResourceTypeSecret, "s2", RelationViewer, SubjectTypeUser, "11", none, none⟩],
    roles := [] }

/-- Witness for C9_delete_cascades_tuples: a soft delete at a concrete
world. -/
theorem C9_witness :
    ¬((⟨7, ResourceTypeSecret, "s2", RelationViewer, SubjectTypeUser, "11", none,
        none⟩ : PermissionTuple).tenantId = 7 ∧
      (⟨7, ResourceTypeSecret, "s2", RelationViewer, SubjectTypeUser, "11", none,
        none⟩ : PermissionTuple).resourceType = ResourceTypeSecret ∧
      (⟨7, ResourceTypeSecret, "s2", RelationViewer, SubjectTypeUser, "11", none,
        none⟩ : PermissionTuple).resourceId = "s1") ∧
    (deleteSecret c9World 0 7 "11" "s1" false).1.kv = c9World.kv := by
  have H := C9_delete_cascades_tuples c9World 0 7 "11" "s1" false
    (deleteSecret c9World 0 7 "11" "s1" false).1 (by decide)
  refine ⟨?_, (H.2 rfl).1⟩
  exact H.1 ⟨7, ResourceTypeSecret, "s2", RelationViewer, SubjectTypeUser, "11",
    none, none⟩ (by decide)

/-- Witness world for C10: the caller owns the secret, so the grant goes
through. -/
def c10World : World :=
  { kv := [], folders := [],
    secrets := [⟨"s1", 7, none, "db", "warden/7/s1", 1, .active⟩],
    versions := [],
    perms := [⟨7, ResourceTypeSecret, "s1", RelationOwner, SubjectTypeUser, "11", none, none⟩],
    roles := [] }

/-- The tuple C10's witness grant creates: no expiration despite the
request asking for one. -/
def c10Tuple : PermissionTuple :=
  ⟨7, ResourceTypeSecret, "s1", RelationEditor, SubjectTypeUser, "22", some 11, none⟩

/-- Witness for C10_grant_ignores_expiry at a concrete world and a request
that asks for an expiring grant. -/
theorem C10_witness :
    c10Tuple.expiresAt = none ∧ tupleExpired c10Tuple 99999 = false ∧
    (grantAccess c10World 0 7 "11" ResourceTypeSecret "s1" RelationEditor
      SubjectTypeUser "22" (some 42)).1.perms = c10World.perms ++ [c10Tuple] := by
  have H := (C10_grant_ignores_expiry c10World 0 7 "11" ResourceTypeSecret "s1"
    RelationEditor SubjectTypeUser "22" (some 42)).2
    (grantAccess c10World 0 7 "11" ResourceTypeSecret "s1" RelationEditor
      SubjectTypeUser "22" (some 42)).1 c10Tuple (by decide)
  exact ⟨H.1, H.2.1 99999, H.2.2⟩

/-! ### C8: the roles header is split but never trimmed -/

theorem specSplitCommas_ne_nil (cs : List Char) : specSplitCommas cs ≠ [] := by
  cases cs with
  | nil => simp [specSplitCommas]
  | cons c cs =>
    unfold specSplitCommas
    cases h : specSplitCommas cs with
    | nil => simp
    | cons hd tl => by_cases hc : c = ',' <;> simp [hc]

/-- Prepend `cur` onto the first entry of a split (the pending slice of the
loop). -/
def consHead (cur : List Char) (l : List (List Char)) : List (List Char) :=
  match l with
  | [] => [cur]
  | h :: t => (cur ++ h) :: t

theorem filter_filter_self {α} (p : α → Bool) (l : List α) :
    (l.filter p).filter p = l.filter p := by
  induction l with
  | nil => rfl
  | cons a l ih => by_cases h : p a = true <;> simp [List.filter_cons, h, ih]

theorem splitRolesGo_spec (cs : List Char) :
    ∀ cur, splitRolesGo cs cur =
      (consHead cur (specSplitCommas cs)).filter (fun r => r ≠ []) := by
  induction cs with
  | nil =>
    intro cur
    by_cases h : cur = [] <;>
      simp [splitRolesGo, specSplitCommas, consHead, h]
  | cons c cs ih =>
    intro cur
    obtain ⟨hd, tl, hht⟩ : ∃ hd tl, specSplitCommas cs = hd :: tl := by
      cases hsp : specSplitCommas cs with
      | nil => exact absurd hsp (specSplitCommas_ne_nil cs)
      | cons hd tl => exact ⟨hd, tl, rfl⟩
    by_cases hc : c = ','
    · subst hc
      have hspec : specSplitCommas (',' :: cs) = [] :: hd :: tl := by
        unfold specSplitCommas
        rw [hht]
        simp
      rw [hspec]
      by_cases hcur : cur = []
      · subst hcur
        simp only [splitRolesGo, if_pos rfl]
        rw [ih [], hht]
        simp [consHead]
      · simp only [splitRolesGo, if_pos rfl, if_neg hcur]
        rw [ih [], hht]
        simp [consHead, List.filter_cons, hcur]
    · have hspec : specSplitCommas (c :: cs) = (c :: hd) :: tl := by
        unfold specSplitCommas
        rw [hht]
        simp [hc]
      rw [hspec]
      simp only [splitRolesGo, if_neg hc]
      rw [ih (cur ++ [c]), hht]
      simp [consHead]

theorem getRolesFromCtx_spec (s : List Char) :
    getRolesFromCtx s = (specSplitCommas s).filter (fun r => r ≠ []) := by
  unfold getRolesFromCtx splitRoles
  by_cases h : s = []
  · subst h
    simp [specSplitCommas]
  · rw [if_neg h, splitRolesGo_spec s []]
    obtain ⟨hd, tl, hht⟩ : ∃ hd tl, specSplitCommas s = hd :: tl := by
      cases hsp : specSplitCommas s with
      | nil => exact absurd hsp (specSplitCommas_ne_nil s)
      | cons hd tl => exact ⟨hd, tl, rfl⟩
    rw [hht]
    simp only [consHead, List.nil_append]
    exact filter_filter_self _ _

/-- C8 is false as stated: whitespace is not trimmed, so a header whose only
entry is `" platform:admin"` (with a leading space) parses to that verbatim
string and does not grant platform privileges. -/
theorem C8_counterexample :
    getRolesFromCtx (" platform:admin".toList) = [" platform:admin".toList] ∧
    isPlatformAdmin (" platform:admin".toList) = false := by
  decide

/-- C8 (amended): parsing splits the header on commas and drops empty
entries, but performs no whitespace trimming; platform privileges are
granted exactly when some comma-separated entry is verbatim
`platform:admin` or `super:admin`. -/
theorem C8_amended_split_no_trim (s : List Char) :
    getRolesFromCtx s = (specSplitCommas s).filter (fun r => r ≠ []) ∧
    isPlatformAdmin s = ((specSplitCommas s).filter (fun r => r ≠ [])).any
      (fun role => role == "platform:admin".toList || role == "super:admin".toList) := by
  refine ⟨getRolesFromCtx_spec s, ?_⟩
  unfold isPlatformAdmin
  rw [getRolesFromCtx_spec s]

/-! ### C4: restore appends a new latest version -/

theorem find?_map_pres {α} (f : α → α) (p : α → Bool)
    (hpres : ∀ x, p (f x) = p x) (l : List α) :
    (l.map f).find? p = (l.find? p).map f := by
  induction l with
  | nil => rfl
  | cons a l ih =>
    simp only [List.map_cons, List.find?_cons]
    rw [hpres a]
    by_cases hpa : p a = true
    · simp [hpa]
    · simp [hpa, ih]

theorem secretGetByID_map_replace (secrets : List Secret) (id : String)
    (s s2 : Secret) (h : secretGetByID secrets id = some s)
    (hsid : (s2.id == id) = true) :
    secretGetByID (secrets.map (fun t => if t.id == id then s2 else t)) id =
      some s2 := by
  have h2 := h
  unfold secretGetByID at h2 ⊢
  have hsf0 := List.find?_some h2
  have hsfound : (s.id == id) = true := hsf0
  have hpres : ∀ t : Secret,
      ((if t.id == id then s2 else t).id == id) = (t.id == id) := by
    intro t
    by_cases ht : (t.id == id) = true <;> simp [ht, hsid]
  rw [find?_map_pres _ _ hpres, h2]
  simp [Option.map, hsfound]

theorem getSecretFolderID_map_replace_self (secrets : List Secret) (id : String)
    (s s2 : Secret) (h : secretGetByID secrets id = some s)
    (hsid : (s2.id == id) = true) (hfid : s2.folderId = s.folderId) :
    GetSecretFolderID (secrets.map (fun t => if t.id == id then s2 else t)) id =
      GetSecretFolderID secrets id := by
  unfold GetSecretFolderID
  rw [secretGetByID_map_replace secrets id s s2 h hsid, h]
  simp [hfid]

theorem check_congr_secrets (st1 st2 : AuthzState) (now tenantId : Nat)
    (userId resourceType resourceId permission : String)
    (hp : st1.perms = st2.perms) (hf : st1.folders = st2.folders)
    (hr : st1.roles = st2.roles)
    (hsec : GetSecretFolderID st1.secrets resourceId =
      GetSecretFolderID st2.secrets resourceId) :
    Check st1 now tenantId userId resourceType resourceId permission =
      Check st2 now tenantId userId resourceType resourceId permission := by
  unfold Check checkHierarchy
  rw [hp, hf, hr, hsec]

/-- C4: a successful `RestoreVersion(v)` appends a new latest KV version
holding version `v`'s payload and points `current_version` at it: the
current read equals the read of version `v`, and the new `current_version`
strictly exceeds every version number that existed before the restore (both
the KV version count and every history row). -/
theorem C4_restore_roundtrip (w : World) (now tenantId : Nat)
    (userId secretId comment : String) (v : Nat) (s : Secret)
    (ve : SecretVersion) (vs : List String) (p : String)
    (hauthW : (Check w.authz now tenantId userId ResourceTypeSecret secretId
      PermissionWrite).allowed = true)
    (hauthR : (Check w.authz now tenantId userId ResourceTypeSecret secretId
      PermissionRead).allowed = true)
    (hs : secretGetByID w.secrets secretId = some s)
    (hv : versionGet w.versions secretId v = some ve)
    (hvp : ve.vaultPath = s.vaultPath)
    (hkv : kvLookup w.kv s.vaultPath = some vs)
    (hp : vs.get? (v - 1) = some p)
    (hv1 : 1 ≤ v)
    (hbound : ∀ u ∈ w.versions, u.secretId = secretId →
      u.versionNumber ≤ vs.length) :
    (restoreVersion w now tenantId userId secretId v comment).2 =
      .ok ({ s with currentVersion := vs.length + 1 }, vs.length + 1) ∧
    getSecretPassword (restoreVersion w now tenantId userId secretId v comment).1
      now tenantId userId secretId none = .ok (p, vs.length + 1) ∧
    getSecretPassword (restoreVersion w now tenantId userId secretId v comment).1
      now tenantId userId secretId (some v) = .ok (p, v) ∧
    (∀ u ∈ w.versions, u.secretId = secretId →
      u.versionNumber < vs.length + 1) ∧
    vs.length < vs.length + 1 := by
  have hvmem : ve ∈ w.versions := List.mem_of_find?_eq_some hv
  have hvc : versionConstraint w.versions secretId (vs.length + 1) s.vaultPath
      = true := by
    unfold versionConstraint
    rw [List.any_eq_true]
    exact ⟨ve, hvmem, by simp [hvp]⟩
  have hgv : kvGetVersion w.kv ve.vaultPath v = some p := by
    unfold kvGetVersion
    rw [hvp, hkv]
    simpa using hp
  have hput : kvPut w.kv s.vaultPath p =
      (kvSet w.kv s.vaultPath (vs ++ [p]), vs.length + 1) := by
    unfold kvPut
    rw [hkv]
    rfl
  have hR : restoreVersion w now tenantId userId secretId v comment =
      ({ w with kv := kvSet w.kv s.vaultPath (vs ++ [p]),
                secrets := w.secrets.map (fun t =>
                  if t.id == secretId then
                    { s with currentVersion := vs.length + 1 }
                  else t) },
        .ok ({ s with currentVersion := vs.length + 1 }, vs.length + 1)) := by
    simp only [restoreVersion, hauthW, Bool.not_true, Bool.false_eq_true,
      if_false, hs, hv, hgv, hput, versionCreate, hvc, if_true,
      secretUpdateVersion]
  rw [hR]
  dsimp only
  have hlt : v - 1 < vs.length := by
    have := List.get?_eq_some.mp hp
    exact this.1
  have h2 := hs
  unfold secretGetByID at h2
  have hsf0 := List.find?_some h2
  have hsfound : (s.id == secretId) = true := hsf0
  have hcheckR :
      Check ⟨w.perms, w.folders, w.secrets.map (fun t =>
          if t.id == secretId then { s with currentVersion := vs.length + 1 }
          else t), w.roles⟩
        now tenantId userId ResourceTypeSecret secretId PermissionRead =
      Check w.authz now tenantId userId ResourceTypeSecret secretId
        PermissionRead :=
    check_congr_secrets _ _ now tenantId userId ResourceTypeSecret secretId
      PermissionRead rfl rfl rfl
      (getSecretFolderID_map_replace_self w.secrets secretId s
        { s with currentVersion := vs.length + 1 } hs hsfound rfl)
  have hsget := secretGetByID_map_replace w.secrets secretId s
    { s with currentVersion := vs.length + 1 } hs hsfound
  have hallow1 : (Check (World.authz { w with
      kv := kvSet w.kv s.vaultPath (vs ++ [p]),
      secrets := w.secrets.map (fun t =>
        if t.id == secretId then { s with currentVersion := vs.length + 1 }
        else t) }) now tenantId userId ResourceTypeSecret secretId
      PermissionRead).allowed = true := by
    show (Check ⟨w.perms, w.folders, w.secrets.map (fun t =>
        if t.id == secretId then { s with currentVersion := vs.length + 1 }
        else t), w.roles⟩ now tenantId userId ResourceTypeSecret secretId
      PermissionRead).allowed = true
    rw [hcheckR]
    exact hauthR
  have hsget1 : secretGetByID ({ w with
      kv := kvSet w.kv s.vaultPath (vs ++ [p]),
      secrets := w.secrets.map (fun t =>
        if t.id == secretId then { s with currentVersion := vs.length + 1 }
        else t) } : World).secrets secretId =
      some { s with currentVersion := vs.length + 1 } := hsget
  refine ⟨rfl, ?_, ?_, ?_, Nat.lt_succ_self _⟩
  · unfold getSecretPassword
    rw [if_neg (by rw [hallow1]; decide)]
    rw [hsget1]
    dsimp only
    unfold kvGetCurrent
    rw [kvLookup_set_same]
    simp
  · unfold getSecretPassword
    rw [if_neg (by rw [hallow1]; decide)]
    rw [hsget1]
    dsimp only
    rw [if_pos (by omega : v > 0)]
    rw [show versionGet ({ w with
        kv := kvSet w.kv s.vaultPath (vs ++ [p]),
        secrets := w.secrets.map (fun t =>
          if t.id == secretId then { s with currentVersion := vs.length + 1 }
          else t) } : World).versions secretId v = some ve from hv]
    dsimp only
    unfold kvGetVersion
    rw [kvLookup_set_same]
    dsimp only [Option.bind]
    rw [List.get?_append hlt, hp]
  · intro u hu hid
    exact Nat.lt_succ_of_le (hbound u hu hid)

/-- Witness world for C4: a secret at version 2 with payloads `p`, `q` in
the KV store and the version-1 history row present. -/
def c4World : World :=
  { kv := [("warden/7/s1", ["pw1", "pw2"])], folders := [],
    secrets := [⟨"s1", 7, none, "db", "warden/7/s1", 2, .active⟩],
    versions := [⟨"s1", 1, "warden/7/s1", "", "sha256:pw1"⟩],
    perms := [⟨7, ResourceTypeSecret, "s1", RelationOwner, SubjectTypeUser, "11",
      none, none⟩],
    roles := [] }

/-- Witness for C4_restore_roundtrip: restoring version 1 of the concrete
secret yields current version 3 with payload `pw1`. -/
theorem C4_witness :
    (restoreVersion c4World 0 7 "11" "s1" 1 "back").2 =
      .ok (⟨"s1", 7, none, "db", "warden/7/s1", 3, .active⟩, 3) ∧
    getSecretPassword (restoreVersion c4World 0 7 "11" "s1" 1 "back").1
      0 7 "11" "s1" none = .ok ("pw1", 3) ∧
    getSecretPassword (restoreVersion c4World 0 7 "11" "s1" 1 "back").1
      0 7 "11" "s1" (some 1) = .ok ("pw1", 1) := by
  have H := C4_restore_roundtrip c4World 0 7 "11" "s1" "back" 1
    ⟨"s1", 7, none, "db", "warden/7/s1", 2, .active⟩
    ⟨"s1", 1, "warden/7/s1", "", "sha256:pw1"⟩ ["pw1", "pw2"] "pw1"
    (by decide) (by decide) (by decide) (by decide) (by decide) (by decide)
    (by decide) (by decide) (by decide)
  exact ⟨H.1, H.2.1, H.2.2.1⟩

/-- C5 counterexample helper: the claim says highest of a list containing
SHARER and EDITOR is EDITOR; the code keeps the first of the two. -/
theorem getHighest_sharer_editor :
    GetHighestRelation [RelationSharer, RelationEditor] = RelationSharer := by
  decide

/-- C5: the claim as stated is false on the code.  `GetHighestRelation`
breaks the EDITOR/SHARER tie (both grant two permissions) in favour of the
earlier list element, not the fixed rank, so a list containing SHARER and
EDITOR in that order yields SHARER, not EDITOR. -/
theorem C5_counterexample :
    GetHighestRelation [RelationSharer, RelationEditor] ≠ RelationEditor ∧
    RelationSharer ∈ [RelationSharer, RelationEditor] ∧
    RelationEditor ∈ [RelationSharer, RelationEditor] := by
  decide

/-- C5 (amended): `atLeast` agrees with the spec's total order (size with the
fixed-rank tie-break) on valid relations, while `highest` maximises only the
permission-set size: its result is an element of the list whose permission
set is at least as large as every other's, the first such element winning
ties (no rank tie-break). -/
theorem C5_amended_highest_and_atLeast :
    (∀ r1 ∈ validRelations, ∀ r2 ∈ validRelations,
        IsRelationAtLeast r1 r2 = specAtLeast r1 r2) ∧
    (∀ l : List String, l ≠ [] →
        GetHighestRelation l ∈ l ∧
        ∀ r ∈ l, CompareRelations r (GetHighestRelation l) ≤ 0) := by
  constructor
  · decide
  · intro l hl
    match l, hl with
    | r :: rs, _ =>
      refine ⟨foldl_highestStep_mem rs r, ?_⟩
      intro x hx
      have hmax := foldl_highestStep_max rs r x hx
      unfold GetHighestRelation CompareRelations
      by_cases h1 : (relationPermissions x).length <
          (relationPermissions (rs.foldl highestStep r)).length
      · simp [h1]
      · by_cases h2 : (relationPermissions x).length >
            (relationPermissions (rs.foldl highestStep r)).length
        · omega
        · simp [h1, h2]

/-- Witness for C5_amended_highest_and_atLeast at concrete inputs. -/
theorem C5_amended_witness :
    IsRelationAtLeast RelationEditor RelationSharer = specAtLeast RelationEditor RelationSharer ∧
    GetHighestRelation [RelationViewer, RelationOwner] ∈ [RelationViewer, RelationOwner] ∧
    CompareRelations RelationViewer (GetHighestRelation [RelationViewer, RelationOwner]) ≤ 0 := by
  refine ⟨?_, ?_, ?_⟩
  · exact C5_amended_highest_and_atLeast.1 RelationEditor (by decide) RelationSharer (by decide)
  · exact (C5_amended_highest_and_atLeast.2 [RelationViewer, RelationOwner] (by decide)).1
  · exact (C5_amended_highest_and_atLeast.2 [RelationViewer, RelationOwner] (by decide)).2
      RelationViewer (by decide)

end Warden
